import Mathlib

/-!
Verification of the authentication/authorization core of the nest-tutorial
backend: guard composition (AND/OR over named strategies), RBAC permission
checks, token sign/verify round-trips, refresh-token rotation, OTP
verification-code issue/validate, and TOTP second-factor verification.

The definitions are a shallow embedding of the TypeScript sources:
  - src/shared/guards/authentication.guard.ts (AuthenticationGuard)
  - src/shared/guards/access-token.guard.ts   (AccessTokenGuard)
  - src/shared/helper.ts                      (stripPrefix)
  - src/shared/constants/auth.constant.ts     (AuthTypes, ConditionGuard)
  - src/routes/auth/auth.service.ts           (AuthService)
  - src/routes/auth/error.model.ts            (error constants)
  - AuthRepository (createVerificationCode, deleteRefreshToken, ...)
  - TokenService (signAccessToken/verifyAccessToken, refresh analogues)
  - TwoFactorAuthService (verifyTOTP via otpauth with window 1)

Dates are modelled as Nat timestamps; JS exceptions are modelled as values
of an error type carried in Except.
-/

namespace NestAuth

/-! ### Error model

NestJS HttpException subclasses used by the code, as a closed datatype.
A thrown JS value is either one of these HTTP-typed exceptions or some
other untyped error (e.g. the TypeError raised when calling a method on
`undefined`). -/

inductive HError where
  | unauthorizedE (msg : String)
  | forbiddenE (msg : String)
  | unprocessableE (msg : String)
  | conflictE (msg : String)
  | notFoundE (msg : String)
  deriving DecidableEq, Repr

inductive JsError where
  | http (e : HError)
  | other (msg : String)
  deriving DecidableEq, Repr

/-- Error constants from src/routes/auth/error.model.ts. -/
def InvalidOTPException : HError := .unprocessableE "Error.InvalidOTP"

def InvalidOTPExpiredExcepton : HError := .unprocessableE "Error.InvalidOTPExpired"

def EmailAlreadyExistsException : HError := .conflictE "Error.EmailAlreadyExists"

def EmailNotExistsException : HError := .unprocessableE "Error.EmailNotExists"

def PasswordIncorrectException : HError := .unprocessableE "Error.PasswordIncorrect"

def RefreshTokenRevokedException : HError := .unauthorizedE "Error.RefreshTokenRevoked"

def InvalidTOTPAndCodeException : HError := .unprocessableE "Error.InvalidTOTPAndCode"

def InvalidTOTPException : HError := .unprocessableE "Error.InvalidTOTP"

def TOTPAlreadyEnabledException : HError := .conflictE "Error.TOTPAlreadyEnabled"

/-- `new UnauthorizedException()` with no argument. -/
def genericUnauthorized : HError := .unauthorizedE ""

/-- `error instanceof UnauthorizedException`. -/
def isUnauthorizedException : HError → Bool
  | .unauthorizedE _ => true
  | _ => false

/-! ### Path normalization (src/shared/helper.ts) -/

/-- `envConfig.prefixUrl`, default "/api/v1" (hardcoded in helper.ts). -/
def PREFIX_URL : String := "/api/v1"

/-- helper.ts: strip the configured URL prefix from a request path
(`path.startsWith(PREFIX_URL) ? path.slice(PREFIX_URL.length) : path`),
expressed on the character sequence so that it evaluates by kernel
reduction. -/
def stripPrefix (path : String) : String :=
  if PREFIX_URL.data.isPrefixOf path.data then
    String.mk (path.data.drop PREFIX_URL.data.length)
  else path

/-! ### RBAC data model and check (access-token.guard.ts) -/

structure Permission where
  path : String
  method : String
  deletedAt : Option Nat
  deriving DecidableEq, Repr

structure Role where
  id : Nat
  name : String
  deletedAt : Option Nat
  permissions : List Permission
  deriving DecidableEq, Repr

/-- `prisma.role.findUniqueOrThrow({ where: { id: roleId, deletedAt: null } })`:
the first role in the table matching the id and not soft-deleted. -/
def findActiveRole : List Role → Nat → Option Role
  | [], _ => Option.none
  | r :: rest, roleId =>
    if r.id = roleId ∧ r.deletedAt = Option.none then some r
    else findActiveRole rest roleId

/-- The `include: { permissions: { where: { deletedAt: null, path, method } } }`
filter of the role query. -/
def matchingPermissions (ps : List Permission) (path method : String) : List Permission :=
  ps.filter (fun p => p.deletedAt = Option.none ∧ p.path = path ∧ p.method = method)

/-- AccessTokenGuard.validateUserPermission: look up the non-deleted role by
id with its permissions filtered to the exact (stripped path, method) pair;
a lookup failure maps to ForbiddenException, and so does an empty
permission intersection. -/
def validateUserPermission (roles : List Role) (roleId : Nat)
    (routePath method : String) : Except HError Unit :=
  let path := stripPrefix routePath
  match findActiveRole roles roleId with
  | Option.none => .error (.forbiddenE "Unauthorized")
  | some role =>
    if (matchingPermissions role.permissions path method).length > 0 then .ok ()
    else .error (.forbiddenE "Unauthorized")

/-! ### Token codec (TokenService) -/

structure TokenCfg where
  accessSecret : String
  refreshSecret : String
  accessExp : Nat
  refreshExp : Nat
  deriving DecidableEq, Repr

/-- AccessTokenDto: the claims handed to signAccessToken. -/
structure AccessTokenDtoS where
  userId : Nat
  email : String
  deviceId : Nat
  roleId : Nat
  roleName : String
  deriving DecidableEq, Repr

/-- Signed access-token claims: the input dto plus uuid/iat/exp added by
signAccessToken and the signer. -/
structure AccessTokenPayload extends AccessTokenDtoS where
  uuid : Nat
  iat : Nat
  exp : Nat
  deriving DecidableEq, Repr

structure RefreshTokenPayloadS where
  userId : Nat
  email : String
  uuid : Nat
  iat : Nat
  exp : Nat
  deriving DecidableEq, Repr

/-- A JWS: payload plus the MAC key and algorithm it was signed with.
Since base64url(JSON) is injective, two JWS strings coincide iff these
components do, so structure equality models string equality of tokens. -/
structure Jwt (P : Type) where
  payload : P
  secret : String
  alg : String
  deriving DecidableEq, Repr

/-- TokenService.signAccessToken: spread the dto, add a fresh uuid, sign
HS512 with the access secret and the configured access expiry. `uuid` is
the fresh random identifier from uuidv4(), `now` the sign instant. -/
def signAccessToken (cfg : TokenCfg) (dto : AccessTokenDtoS) (uuid now : Nat) :
    Jwt AccessTokenPayload :=
  ⟨{ toAccessTokenDtoS := dto, uuid := uuid, iat := now, exp := now + cfg.accessExp },
   cfg.accessSecret, "HS512"⟩

/-- TokenService.signRefreshToken. -/
def signRefreshToken (cfg : TokenCfg) (userId : Nat) (email : String) (uuid now : Nat) :
    Jwt RefreshTokenPayloadS :=
  ⟨⟨userId, email, uuid, now, now + cfg.refreshExp⟩, cfg.refreshSecret, "HS512"⟩

/-- TokenService.verifyAccessToken: check key and algorithm (a mismatch is a
JsonWebTokenError, mapped to Unauthorized "Invalid token"), then expiry
(jsonwebtoken treats `now >= exp` as TokenExpiredError, mapped to
Unauthorized "Token has expired"); on success return the full claims. -/
def verifyAccessToken (cfg : TokenCfg) (t : Jwt AccessTokenPayload) (now : Nat) :
    Except HError AccessTokenPayload :=
  if t.secret = cfg.accessSecret ∧ t.alg = "HS512" then
    if t.payload.exp ≤ now then .error (.unauthorizedE "Token has expired")
    else .ok t.payload
  else .error (.unauthorizedE "Invalid token")

/-- TokenService.verifyRefreshToken (same shape, refresh secret). -/
def verifyRefreshToken (cfg : TokenCfg) (t : Jwt RefreshTokenPayloadS) (now : Nat) :
    Except HError RefreshTokenPayloadS :=
  if t.secret = cfg.refreshSecret ∧ t.alg = "HS512" then
    if t.payload.exp ≤ now then .error (.unauthorizedE "Token has expired")
    else .ok t.payload
  else .error (.unauthorizedE "Invalid token")

/-! ### Guard composition (authentication.guard.ts)

A single strategy evaluation (`await guard.canActivate(context)`) either
returns true, returns false, or throws. -/

inductive GOutcome where
  | ok
  | denied
  | raise (e : JsError)
  deriving DecidableEq, Repr

/-- AuthenticationGuard.handleOrCondition: try each guard in order inside
try/catch, remembering the last thrown error; the first `true` returns
overall success; after the loop the remembered error is rethrown if it is
an HttpException, otherwise `new UnauthorizedException()` is thrown.
`last` is the `lastError` accumulator (initially null). -/
def handleOrCondition : List GOutcome → Option JsError → Except JsError Unit
  | [], last =>
    match last with
    | some (.http h) => .error (.http h)
    | _ => .error (.http genericUnauthorized)
  | o :: rest, last =>
    match o with
    | .ok => .ok ()
    | .denied => handleOrCondition rest last
    | .raise e => handleOrCondition rest (some e)

/-- AuthenticationGuard.handleAndCondition: evaluate guards in order; a
`false` return throws a fresh UnauthorizedException (which, being an
HttpException, is rethrown by the catch); a thrown HttpException is
rethrown verbatim; any other thrown error is replaced by a generic
UnauthorizedException. Success only when every guard returned true. -/
def handleAndCondition : List GOutcome → Except JsError Unit
  | [] => .ok ()
  | o :: rest =>
    match o with
    | .ok => handleAndCondition rest
    | .denied => .error (.http genericUnauthorized)
    | .raise (.http h) => .error (.http h)
    | .raise (.other _) => .error (.http genericUnauthorized)

/-- Number of guards whose canActivate is invoked under OR: evaluation
stops at the first success, otherwise every guard is tried. -/
def evalCountOr : List GOutcome → Nat
  | [] => 0
  | .ok :: _ => 1
  | .denied :: rest => 1 + evalCountOr rest
  | .raise _ :: rest => 1 + evalCountOr rest

/-- Number of guards whose canActivate is invoked under AND: evaluation
stops at the first non-success. -/
def evalCountAnd : List GOutcome → Nat
  | [] => 0
  | .ok :: rest => 1 + evalCountAnd rest
  | .denied :: _ => 1
  | .raise _ :: _ => 1

/-- The fold step updating `lastError` during an OR sweep: a throw
replaces it, a plain false return leaves it alone. -/
def lastErrorStep (acc : Option JsError) (o : GOutcome) : Option JsError :=
  match o with
  | .raise e => some e
  | _ => acc

/-- The `lastError` value left by a full OR sweep: the last thrown error,
if any (a guard that merely returns false does not update it). -/
def lastThrown (outs : List GOutcome) : Option JsError :=
  outs.foldl lastErrorStep Option.none

/-! ### Concrete strategies (auth.constant.ts, authentication.guard.ts) -/

/-- The strategy names declarable via the Auth decorator (AuthTypes). -/
inductive AuthType where
  | bearer
  | apiKey
  | noneT
  deriving DecidableEq, Repr

inductive CondGuard where
  | andCond
  | orCond
  deriving DecidableEq, Repr

/-- An HTTP request as seen by the guards. -/
structure GuardRequest where
  authorization : Option String
  routePath : String
  method : String
  deriving DecidableEq, Repr

/-- AccessTokenGuard.extractTokenFromHeader:
`request.headers.authorization?.split(' ')[1]`; missing header, missing
second token, or an empty (falsy) second token all fail. -/
def extractTokenFromHeader (req : GuardRequest) : Option String :=
  match req.authorization with
  | Option.none => Option.none
  | some h =>
    match (h.splitOn " ")[1]? with
    | Option.none => Option.none
    | some t => if t = "" then Option.none else some t

/-- AccessTokenGuard.canActivate as an outcome: extract the bearer token
(Unauthorized "Access token is missing or malformed" if absent), verify it
via the token service (any verification error is replaced by Unauthorized
"Invalid access token"), then run the RBAC check. `verify` abstracts
`tokenService.verifyAccessToken` on raw header strings. -/
def accessTokenGuardOutcome (roles : List Role)
    (verify : String → Option AccessTokenPayload) (req : GuardRequest) : GOutcome :=
  match extractTokenFromHeader req with
  | Option.none => .raise (.http (.unauthorizedE "Access token is missing or malformed"))
  | some tok =>
    match verify tok with
    | Option.none => .raise (.http (.unauthorizedE "Invalid access token"))
    | some payload =>
      match validateUserPermission roles payload.roleId req.routePath req.method with
      | .ok _ => .ok
      | .error e => .raise (.http e)

/-- `authTypeGuardMap[authType]` followed by `guard.canActivate(context)`:
Bearer dispatches to AccessTokenGuard, None to `{ canActivate: () => true }`,
and any other declared name has no map entry, so the lookup yields
`undefined` and the call throws an untyped TypeError. -/
def guardOutcome (roles : List Role) (verify : String → Option AccessTokenPayload)
    (req : GuardRequest) : AuthType → GOutcome
  | .bearer => accessTokenGuardOutcome roles verify req
  | .noneT => .ok
  | .apiKey => .raise (.other "TypeError: guard.canActivate is not a function")

/-- AuthenticationGuard.canActivate: map the declared strategy names
through the guard map, then combine under the declared condition. -/
def canActivateGuards (roles : List Role) (verify : String → Option AccessTokenPayload)
    (authTypes : List AuthType) (cond : CondGuard) (req : GuardRequest) :
    Except JsError Unit :=
  let outs := authTypes.map (guardOutcome roles verify req)
  match cond with
  | .andCond => handleAndCondition outs
  | .orCond => handleOrCondition outs Option.none

/-! ### Verification codes (AuthRepository, AuthService) -/

/-- TypeVerifycationCode (auth.constant.ts). -/
inductive VCType where
  | register
  | forgotPassword
  | login
  | disable2FA
  deriving DecidableEq, Repr

structure VerificationCodeRow where
  email : String
  code : String
  type : VCType
  expiresAt : Nat
  deriving DecidableEq, Repr

/-- AuthRepository.createVerificationCode:
`prisma.verificationCode.upsert({ where: { email }, create: payload,
update: { code, expiresAt } })` — the upsert is keyed by email alone, and
the update clause rewrites only `code` and `expiresAt` (the stored `type`
is left as it was). -/
def createVerificationCode (store : List VerificationCodeRow)
    (p : VerificationCodeRow) : List VerificationCodeRow :=
  if store.any (fun r => r.email = p.email) then
    store.map (fun r =>
      if r.email = p.email then { r with code := p.code, expiresAt := p.expiresAt } else r)
  else store ++ [p]

/-- AuthRepository.findVerificationCodeByEmailAndType with the composite
(email, code, type) selector used by validateVerificationCode. -/
def findVerificationCode (store : List VerificationCodeRow)
    (email code : String) (type : VCType) : Option VerificationCodeRow :=
  store.find? (fun r => r.email = email ∧ r.code = code ∧ r.type = type)

/-- AuthService.validateVerificationCode: exact (email, code, type) match
required, else InvalidOTP; then `expiresAt < new Date()` (strictly before
the validation instant) fails InvalidOTPExpired. -/
def validateVerificationCode (store : List VerificationCodeRow)
    (email code : String) (type : VCType) (now : Nat) :
    Except HError VerificationCodeRow :=
  match findVerificationCode store email code type with
  | Option.none => .error InvalidOTPException
  | some r =>
    if r.expiresAt < now then .error InvalidOTPExpiredExcepton
    else .ok r

/-! ### TOTP (TwoFactorAuthService, otpauth) -/

/-- Configured TOTP step in seconds (envConfig.totpPeriod, default 30);
the configured digit count (default 6) is absorbed into the abstract
HOTP function below. -/
def TOTP_PERIOD : Nat := 30

/-- The RFC 6238 time-step counter for a timestamp in seconds. -/
def totpCounter (period tSec : Nat) : Int := (tSec / period : Nat)

/-- otpauth TOTP.validate with `window: 1`: compare the presented token
against the codes of counters c-1, c and c+1 (in that order), returning
the first matching delta. `hotp secret counter` abstracts the
HMAC-SHA1-based code generation for the given secret. -/
def totpValidate (hotp : String → Int → String) (period : Nat)
    (secret token : String) (tSec : Nat) : Option Int :=
  let c := totpCounter period tSec
  if token = hotp secret (c - 1) then some (-1)
  else if token = hotp secret c then some 0
  else if token = hotp secret (c + 1) then some 1
  else Option.none

/-- TwoFactorAuthService.verifyTOTP: `totp.validate({ token, window: 1 })
!== null`. The email is only the provisioning label and does not affect
validation. -/
def verifyTOTP (hotp : String → Int → String) (period : Nat)
    (secret _email token : String) (tSec : Nat) : Bool :=
  (totpValidate hotp period secret token tSec).isSome

/-! ### Session store and auth flows (AuthService, AuthRepository) -/

structure RefreshTokenRow where
  token : Jwt RefreshTokenPayloadS
  userId : Nat
  deviceId : Nat
  expiresAt : Nat
  deriving DecidableEq, Repr

structure DeviceRow where
  id : Nat
  userId : Nat
  userAgent : String
  ip : String
  isActive : Bool
  lastActive : Nat
  deriving DecidableEq, Repr

/-- A user row joined with its role (findUniqueUserIncludeRole /
the `include: { user: { include: { role: true } } }` joins). -/
structure UserRow where
  id : Nat
  email : String
  password : String
  totpSecret : Option String
  roleId : Nat
  roleName : String
  deriving DecidableEq, Repr

/-- The mutable storage the auth flows touch. `nextUuid` models the
freshness of uuidv4(): every signing consumes a uuid never used before;
`nextDeviceId` models the autoincrement device id. -/
structure AuthState where
  users : List UserRow
  devices : List DeviceRow
  refreshTokens : List RefreshTokenRow
  verificationCodes : List VerificationCodeRow
  nextUuid : Nat
  nextDeviceId : Nat
  deriving DecidableEq, Repr

def findUserByEmail : List UserRow → String → Option UserRow
  | [], _ => Option.none
  | u :: rest, email => if u.email = email then some u else findUserByEmail rest email

def findUserById : List UserRow → Nat → Option UserRow
  | [], _ => Option.none
  | u :: rest, uid => if u.id = uid then some u else findUserById rest uid

/-- findUnique on the refresh-token table by its unique token string. -/
def findRefreshTokenRow : List RefreshTokenRow → Jwt RefreshTokenPayloadS →
    Option RefreshTokenRow
  | [], _ => Option.none
  | r :: rest, t => if r.token = t then some r else findRefreshTokenRow rest t

/-- AuthRepository.deleteRefreshToken: `prisma.refreshToken.delete({ where:
{ token } })` — the row is removed outright (the table has no soft-delete
column). -/
def deleteRefreshTokenRows : List RefreshTokenRow → Jwt RefreshTokenPayloadS →
    List RefreshTokenRow
  | [], _ => []
  | r :: rest, t =>
    if r.token = t then deleteRefreshTokenRows rest t
    else r :: deleteRefreshTokenRows rest t

/-- AuthRepository.udpateDevice for the refresh flow: `prisma.device.update`
fails with Prisma error P2025 when no row has the id. -/
def udpateDevice (devices : List DeviceRow) (deviceId : Nat)
    (userAgent ip : String) (lastActive : Nat) : Except JsError (List DeviceRow) :=
  if devices.any (fun d => d.id = deviceId) then
    .ok (devices.map (fun d =>
      if d.id = deviceId then
        { d with userAgent := userAgent, ip := ip, lastActive := lastActive }
      else d))
  else .error (.other "PrismaClientKnownRequestError P2025")

/-- AuthRepository.findUniqueRefreshTokenIncludeUserRole: the token row
joined with its user (and role, inlined in UserRow); the foreign key
guarantees the joined user exists whenever the row does. -/
def findRefreshTokenIncludeUserRole (st : AuthState) (t : Jwt RefreshTokenPayloadS) :
    Option (RefreshTokenRow × UserRow) :=
  match findRefreshTokenRow st.refreshTokens t with
  | Option.none => Option.none
  | some row =>
    match findUserById st.users row.userId with
    | Option.none => Option.none
    | some u => some (row, u)

/-- AuthService.generateAccessAndRefreshToken: sign both tokens (each with
a fresh uuid), decode the refresh token's own exp, and persist a
RefreshToken row with exactly that expiry bound to the device. -/
def generateAccessAndRefreshToken (cfg : TokenCfg) (st : AuthState)
    (userId : Nat) (email : String) (deviceId roleId : Nat) (roleName : String)
    (now : Nat) :
    Except JsError (AuthState × Jwt AccessTokenPayload × Jwt RefreshTokenPayloadS) :=
  let accessTok := signAccessToken cfg ⟨userId, email, deviceId, roleId, roleName⟩ st.nextUuid now
  let refreshTok := signRefreshToken cfg userId email (st.nextUuid + 1) now
  match verifyRefreshToken cfg refreshTok now with
  | .error e => .error (.http e)
  | .ok decoded =>
    .ok ({ st with
            nextUuid := st.nextUuid + 2,
            refreshTokens := st.refreshTokens ++
              [⟨refreshTok, userId, deviceId, decoded.exp⟩] },
         accessTok, refreshTok)

/-- The body of AuthService.refreshToken before its catch clause: verify
the presented refresh token, look its row up (absent row means it was
never issued or already rotated: RefreshTokenRevoked), then delete the old
row, update the device and issue a fresh pair (issued under Promise.all:
all three effects apply before the call returns). -/
def refreshTokenTry (cfg : TokenCfg) (st : AuthState)
    (tok : Jwt RefreshTokenPayloadS) (userAgent ip : String) (now : Nat) :
    Except JsError (AuthState × Jwt AccessTokenPayload × Jwt RefreshTokenPayloadS) :=
  match verifyRefreshToken cfg tok now with
  | .error e => .error (.http e)
  | .ok payload =>
    match findRefreshTokenIncludeUserRole st tok with
    | Option.none => .error (.http RefreshTokenRevokedException)
    | some (row, user) =>
      let st1 := { st with refreshTokens := deleteRefreshTokenRows st.refreshTokens tok }
      match udpateDevice st1.devices row.deviceId userAgent ip now with
      | .error e => .error e
      | .ok devices1 =>
        generateAccessAndRefreshToken cfg { st1 with devices := devices1 }
          payload.userId payload.email row.deviceId user.roleId user.roleName now

/-- AuthService.refreshToken: the catch clause rethrows
UnauthorizedException instances verbatim and collapses every other error
to `new UnauthorizedException()`. -/
def refreshTokenService (cfg : TokenCfg) (st : AuthState)
    (tok : Jwt RefreshTokenPayloadS) (userAgent ip : String) (now : Nat) :
    Except HError (AuthState × Jwt AccessTokenPayload × Jwt RefreshTokenPayloadS) :=
  match refreshTokenTry cfg st tok userAgent ip now with
  | .ok r => .ok r
  | .error (.http e) =>
    if isUnauthorizedException e then .error e else .error genericUnauthorized
  | .error (.other _) => .error genericUnauthorized

/-! ### Login (AuthService.login, LoginBodySchema) -/

/-- The login request body after DTO parsing: optional totpCode and code
(zod `.optional()`, so absent = Option.none; the length-6 constraint rules
out empty strings, so JS falsiness coincides with absence). -/
structure LoginBody where
  email : String
  password : String
  totpCode : Option String
  code : Option String
  deriving DecidableEq, Repr

/-- LoginBodySchema's superRefine: a body carrying both totpCode and code
is rejected by DTO validation ("TOTP code or OTP code is required. Not
provided both") before it ever reaches AuthService.login. -/
def loginBodyRefineOk (body : LoginBody) : Bool :=
  !(body.totpCode.isSome && body.code.isSome)

/-- HashingService.hashPassword modelled as an injective tagging (bcrypt
as an opaque hash/compare capability). -/
def hashPassword (p : String) : String := "$bcrypt$" ++ p

/-- HashingService.comparePassword. -/
def comparePassword (p hash : String) : Bool := hashPassword p = hash

/-- AuthService.login after a found user and valid password, from the 2FA
block onward: create a device row, then issue the token pair. -/
def loginIssueTokens (cfg : TokenCfg) (st : AuthState) (u : UserRow)
    (userAgent ip : String) (now : Nat) :
    Except JsError (AuthState × Jwt AccessTokenPayload × Jwt RefreshTokenPayloadS) :=
  let device : DeviceRow := ⟨st.nextDeviceId, u.id, userAgent, ip, true, now⟩
  let st1 := { st with devices := st.devices ++ [device],
                       nextDeviceId := st.nextDeviceId + 1 }
  generateAccessAndRefreshToken cfg st1 u.id u.email device.id u.roleId u.roleName now

/-- AuthService.login: find the user by email (EmailNotExists), compare
the password (PasswordIncorrect); if a TOTP secret is enrolled and neither
totpCode nor code is present fail InvalidTOTPAndCode, otherwise a present
totpCode takes the TOTP branch (InvalidTOTP on mismatch) and only an
absent totpCode with a present code takes the email-OTP branch; finally
create the device and issue tokens. -/
def loginService (cfg : TokenCfg) (hotp : String → Int → String) (st : AuthState)
    (body : LoginBody) (userAgent ip : String) (now : Nat) :
    Except JsError (AuthState × Jwt AccessTokenPayload × Jwt RefreshTokenPayloadS) :=
  match findUserByEmail st.users body.email with
  | Option.none => .error (.http EmailNotExistsException)
  | some u =>
    if comparePassword body.password u.password then
      match u.totpSecret with
      | some secret =>
        if body.code.isNone && body.totpCode.isNone then
          .error (.http InvalidTOTPAndCodeException)
        else
          match body.totpCode with
          | some t =>
            if verifyTOTP hotp TOTP_PERIOD secret u.email t now then
              loginIssueTokens cfg st u userAgent ip now
            else .error (.http InvalidTOTPException)
          | Option.none =>
            match body.code with
            | some c =>
              match validateVerificationCode st.verificationCodes body.email c .login now with
              | .error e => .error (.http e)
              | .ok _ => loginIssueTokens cfg st u userAgent ip now
            | Option.none => loginIssueTokens cfg st u userAgent ip now
      | Option.none => loginIssueTokens cfg st u userAgent ip now
    else .error (.http PasswordIncorrectException)

/-! ### Derived notions used in the statements -/

/-- How handleAndCondition surfaces a failing outcome: a thrown
HttpException propagates verbatim, everything else (a false return or an
untyped throw) becomes `new UnauthorizedException()`. -/
def andFailureError : GOutcome → HError
  | .raise (.http h) => h
  | _ => genericUnauthorized

/-- How handleOrCondition surfaces the remembered `lastError` once every
guard has failed. -/
def orFinalError : Option JsError → JsError
  | some (.http h) => .http h
  | _ => .http genericUnauthorized

/-- Freshness of uuidv4: every refresh token already persisted was signed
with an identifier older than the next one the service will draw. -/
abbrev uuidFresh (st : AuthState) : Prop :=
  ∀ row ∈ st.refreshTokens, row.token.payload.uuid < st.nextUuid

/-! ### Concrete instances used by the closed examples -/

def cfgW : TokenCfg := ⟨"as", "rs", 10, 100⟩

def userW : UserRow := ⟨1, "a@b.c", hashPassword "pw", some "S", 7, "ADMIN"⟩

def tokW : Jwt RefreshTokenPayloadS := signRefreshToken cfgW 1 "a@b.c" 3 0

def stW : AuthState :=
  ⟨[userW], [⟨5, 1, "u0", "i0", true, 0⟩], [⟨tokW, 1, 5, 100⟩], [], 4, 9⟩

/-- The state after a successful rotation of tokW in stW at time 50. -/
def stW2 : AuthState :=
  ⟨[userW], [⟨5, 1, "ua", "ip", true, 50⟩],
   [⟨signRefreshToken cfgW 1 "a@b.c" 5 50, 1, 5, 150⟩], [], 6, 9⟩

def pairW : Jwt AccessTokenPayload × Jwt RefreshTokenPayloadS :=
  (signAccessToken cfgW ⟨1, "a@b.c", 5, 7, "ADMIN"⟩ 4 50,
   signRefreshToken cfgW 1 "a@b.c" 5 50)

/-- A deterministic stand-in for HOTP generation, distinct on the
counters exercised by the examples. -/
def hotpW : String → Int → String := fun s i =>
  if i = 1 then s ++ "D"
  else if i = 2 then s ++ "A"
  else if i = 3 then s ++ "B"
  else if i = 4 then s ++ "C"
  else s ++ "Z"

def stLoginW : AuthState := ⟨[userW], [], [], [], 0, 0⟩

def bodyBothW : LoginBody := ⟨"a@b.c", "pw", some "SA", some "123456"⟩

def bodyNeitherW : LoginBody := ⟨"a@b.c", "pw", Option.none, Option.none⟩

deriving instance DecidableEq for Except

/-! ## Helper lemmas -/

theorem findActiveRole_eq_some {roles : List Role} {roleId : Nat} {r : Role}
    (h : findActiveRole roles roleId = some r) :
    r ∈ roles ∧ r.id = roleId ∧ r.deletedAt = Option.none := by
  induction roles with
  | nil => simp [findActiveRole] at h
  | cons a rest ih =>
    rw [findActiveRole] at h
    split at h
    · rename_i hc
      cases h
      exact ⟨List.mem_cons_self .., hc.1, hc.2⟩
    · have := ih h
      exact ⟨List.mem_cons_of_mem _ this.1, this.2⟩

theorem findActiveRole_eq_none {roles : List Role} {roleId : Nat}
    (h : findActiveRole roles roleId = Option.none) :
    ∀ r ∈ roles, ¬(r.id = roleId ∧ r.deletedAt = Option.none) := by
  induction roles with
  | nil => simp
  | cons a rest ih =>
    rw [findActiveRole] at h
    split at h
    · cases h
    · intro r hr
      rcases List.mem_cons.mp hr with rfl | hmem
      · rename_i hc; exact hc
      · exact ih h r hmem

theorem findActiveRole_of_mem {roles : List Role} {roleId : Nat} {r : Role}
    (hnd : (roles.map Role.id).Nodup) (hr : r ∈ roles) (hid : r.id = roleId)
    (hdel : r.deletedAt = Option.none) :
    findActiveRole roles roleId = some r := by
  induction roles with
  | nil => cases hr
  | cons a rest ih =>
    rw [List.map_cons, List.nodup_cons] at hnd
    rcases List.mem_cons.mp hr with rfl | hmem
    · rw [findActiveRole]
      split
      · rfl
      · rename_i hc; exact absurd ⟨hid, hdel⟩ hc
    · rw [findActiveRole]
      split
      · rename_i hc
        exfalso
        apply hnd.1
        rw [hc.1, ← hid]
        exact List.mem_map_of_mem Role.id hmem
      · exact ih hnd.2 hmem

theorem matchingPermissions_pos {ps : List Permission} {path method : String} :
    (matchingPermissions ps path method).length > 0 ↔
      ∃ p ∈ ps, p.deletedAt = Option.none ∧ p.path = path ∧ p.method = method := by
  rw [matchingPermissions]
  constructor
  · intro h
    rcases List.exists_mem_of_ne_nil _ (List.ne_nil_of_length_pos h) with ⟨p, hp⟩
    have := List.mem_filter.mp hp
    refine ⟨p, this.1, by simpa using this.2⟩
  · intro ⟨p, hmem, hp⟩
    apply List.length_pos_of_mem (a := p)
    rw [List.mem_filter]
    exact ⟨hmem, by simpa using hp⟩

theorem handleAnd_ok_iff (outs : List GOutcome) :
    handleAndCondition outs = .ok () ↔ ∀ x ∈ outs, x = .ok := by
  induction outs with
  | nil => simp [handleAndCondition]
  | cons o rest ih =>
    cases o with
    | ok => simpa [handleAndCondition] using ih
    | denied => simp [handleAndCondition]
    | raise e => cases e <;> simp [handleAndCondition]

theorem handleAnd_append_fail (pre post : List GOutcome) (o : GOutcome)
    (hpre : ∀ x ∈ pre, x = .ok) (ho : o ≠ .ok) :
    handleAndCondition (pre ++ o :: post) = .error (.http (andFailureError o)) := by
  induction pre with
  | nil =>
    cases o with
    | ok => exact absurd rfl ho
    | denied => simp [handleAndCondition, andFailureError]
    | raise e => cases e <;> simp [handleAndCondition, andFailureError]
  | cons p pre' ih =>
    have hp : p = .ok := hpre p (List.mem_cons_self ..)
    subst hp
    rw [List.cons_append, handleAndCondition]
    exact ih fun x hx => hpre x (List.mem_cons_of_mem _ hx)

theorem evalCountAnd_append_fail (pre post : List GOutcome) (o : GOutcome)
    (hpre : ∀ x ∈ pre, x = .ok) (ho : o ≠ .ok) :
    evalCountAnd (pre ++ o :: post) = pre.length + 1 := by
  induction pre with
  | nil =>
    cases o with
    | ok => exact absurd rfl ho
    | denied => simp [evalCountAnd]
    | raise e => simp [evalCountAnd]
  | cons p pre' ih =>
    have hp : p = .ok := hpre p (List.mem_cons_self ..)
    subst hp
    rw [List.cons_append, evalCountAnd,
      ih fun x hx => hpre x (List.mem_cons_of_mem _ hx)]
    simp [List.length_cons]
    omega

theorem handleAnd_no_other (outs : List GOutcome) (m : String) :
    handleAndCondition outs ≠ .error (.other m) := by
  induction outs with
  | nil => simp [handleAndCondition]
  | cons o rest ih =>
    cases o with
    | ok => simpa [handleAndCondition] using ih
    | denied => simp [handleAndCondition]
    | raise e => cases e <;> simp [handleAndCondition]

theorem handleOr_append_ok (pre post : List GOutcome) (acc : Option JsError)
    (hpre : ∀ x ∈ pre, x ≠ .ok) :
    handleOrCondition (pre ++ .ok :: post) acc = .ok () := by
  induction pre generalizing acc with
  | nil => simp [handleOrCondition]
  | cons p pre' ih =>
    have hp : p ≠ .ok := hpre p (List.mem_cons_self ..)
    have hrest : ∀ x ∈ pre', x ≠ .ok := fun x hx => hpre x (List.mem_cons_of_mem _ hx)
    cases p with
    | ok => exact absurd rfl hp
    | denied => rw [List.cons_append, handleOrCondition]; exact ih _ hrest
    | raise e => rw [List.cons_append, handleOrCondition]; exact ih _ hrest

theorem evalCountOr_append_ok (pre post : List GOutcome)
    (hpre : ∀ x ∈ pre, x ≠ .ok) :
    evalCountOr (pre ++ .ok :: post) = pre.length + 1 := by
  induction pre with
  | nil => simp [evalCountOr]
  | cons p pre' ih =>
    have hp : p ≠ .ok := hpre p (List.mem_cons_self ..)
    have hrest : ∀ x ∈ pre', x ≠ .ok := fun x hx => hpre x (List.mem_cons_of_mem _ hx)
    cases p with
    | ok => exact absurd rfl hp
    | denied =>
      rw [List.cons_append, evalCountOr, ih hrest]
      simp [List.length_cons]
      omega
    | raise e =>
      rw [List.cons_append, evalCountOr, ih hrest]
      simp [List.length_cons]
      omega

theorem handleOr_all_fail (outs : List GOutcome) (acc : Option JsError)
    (h : ∀ x ∈ outs, x ≠ .ok) :
    handleOrCondition outs acc = .error (orFinalError (outs.foldl lastErrorStep acc)) := by
  induction outs generalizing acc with
  | nil =>
    cases acc with
    | none => simp [handleOrCondition, orFinalError]
    | some e => cases e <;> simp [handleOrCondition, orFinalError]
  | cons o rest ih =>
    have ho : o ≠ .ok := h o (List.mem_cons_self ..)
    have hrest : ∀ x ∈ rest, x ≠ .ok := fun x hx => h x (List.mem_cons_of_mem _ hx)
    cases o with
    | ok => exact absurd rfl ho
    | denied => rw [handleOrCondition, List.foldl_cons]; exact ih _ hrest
    | raise e => rw [handleOrCondition, List.foldl_cons]; exact ih _ hrest

theorem foldl_lastErrorStep_const {l : List GOutcome} {e : JsError}
    (h : ∀ x ∈ l, x = .raise e) : l.foldl lastErrorStep (some e) = some e := by
  induction l with
  | nil => rfl
  | cons b bs ih =>
    have hb : b = .raise e := h b (List.mem_cons_self ..)
    subst hb
    rw [List.foldl_cons, lastErrorStep]
    exact ih fun x hx => h x (List.mem_cons_of_mem _ hx)

theorem handleOr_no_other (outs : List GOutcome) (acc : Option JsError) (m : String) :
    handleOrCondition outs acc ≠ .error (.other m) := by
  induction outs generalizing acc with
  | nil =>
    cases acc with
    | none => simp [handleOrCondition]
    | some e => cases e <;> simp [handleOrCondition, genericUnauthorized]
  | cons o rest ih =>
    cases o with
    | ok => simp [handleOrCondition]
    | denied => rw [handleOrCondition]; exact ih _
    | raise e => rw [handleOrCondition]; exact ih _

theorem findRefreshTokenRow_eq_some {l : List RefreshTokenRow}
    {t : Jwt RefreshTokenPayloadS} {r : RefreshTokenRow}
    (h : findRefreshTokenRow l t = some r) : r ∈ l ∧ r.token = t := by
  induction l with
  | nil => simp [findRefreshTokenRow] at h
  | cons a rest ih =>
    rw [findRefreshTokenRow] at h
    split at h
    · cases h
      rename_i hc
      exact ⟨List.mem_cons_self .., hc⟩
    · have := ih h
      exact ⟨List.mem_cons_of_mem _ this.1, this.2⟩

theorem findRefreshTokenRow_eq_none {l : List RefreshTokenRow}
    {t : Jwt RefreshTokenPayloadS} (h : ∀ r ∈ l, r.token ≠ t) :
    findRefreshTokenRow l t = Option.none := by
  induction l with
  | nil => rfl
  | cons a rest ih =>
    rw [findRefreshTokenRow]
    split
    · rename_i hc
      exact absurd hc (h a (List.mem_cons_self ..))
    · exact ih fun r hr => h r (List.mem_cons_of_mem _ hr)

theorem mem_deleteRefreshTokenRows {l : List RefreshTokenRow}
    {t : Jwt RefreshTokenPayloadS} {r : RefreshTokenRow}
    (h : r ∈ deleteRefreshTokenRows l t) : r ∈ l ∧ r.token ≠ t := by
  induction l with
  | nil => simp [deleteRefreshTokenRows] at h
  | cons a rest ih =>
    rw [deleteRefreshTokenRows] at h
    split at h
    · have := ih h
      exact ⟨List.mem_cons_of_mem _ this.1, this.2⟩
    · rcases List.mem_cons.mp h with rfl | hmem
      · rename_i hc
        exact ⟨List.mem_cons_self .., hc⟩
      · have := ih hmem
        exact ⟨List.mem_cons_of_mem _ this.1, this.2⟩

theorem verifyRefreshToken_error_unauthorized {cfg : TokenCfg}
    {t : Jwt RefreshTokenPayloadS} {now : Nat} {e : HError}
    (h : verifyRefreshToken cfg t now = .error e) :
    isUnauthorizedException e = true := by
  rw [verifyRefreshToken] at h
  split at h
  · split at h
    · cases h; rfl
    · cases h
  · cases h; rfl

theorem loginIssueTokens_ne_totp_and_code (cfg : TokenCfg) (st : AuthState)
    (u : UserRow) (userAgent ip : String) (now : Nat) :
    loginIssueTokens cfg st u userAgent ip now ≠
      .error (.http InvalidTOTPAndCodeException) := by
  rw [loginIssueTokens, generateAccessAndRefreshToken]
  intro h
  split at h
  · rename_i e he
    cases h
    have := verifyRefreshToken_error_unauthorized he
    simp [InvalidTOTPAndCodeException, isUnauthorizedException] at this
  · cases h

/-! ## Claim theorems -/

/-- Claim C2: RBAC authorization grants access if and only if the role
exists, is non-deleted, and has at least one non-deleted permission whose
path equals the request path with the configured URL prefix stripped and
whose method equals the request method exactly; every denial — including
a role lookup miss or a deleted role — is the ForbiddenException, never a
NotFound. (Role ids are unique in the role table.) -/
theorem rbac_grant_iff_exact_match (roles : List Role) (roleId : Nat)
    (routePath method : String) (hids : (roles.map Role.id).Nodup) :
    (validateUserPermission roles roleId routePath method = .ok () ↔
      ∃ r ∈ roles, r.id = roleId ∧ r.deletedAt = Option.none ∧
        ∃ p ∈ r.permissions, p.deletedAt = Option.none ∧
          p.path = stripPrefix routePath ∧ p.method = method)
    ∧ ∀ e, validateUserPermission roles roleId routePath method = .error e →
        e = HError.forbiddenE "Unauthorized" := by
  constructor
  · constructor
    · intro h
      cases hfind : findActiveRole roles roleId with
      | none => simp [validateUserPermission, hfind] at h
      | some r =>
        simp only [validateUserPermission, hfind] at h
        obtain ⟨hmem, hid, hdel⟩ := findActiveRole_eq_some hfind
        refine ⟨r, hmem, hid, hdel, ?_⟩
        split at h
        · rename_i hpos
          exact matchingPermissions_pos.mp hpos
        · cases h
    · intro ⟨r, hmem, hid, hdel, p, hpmem, hp⟩
      simp only [validateUserPermission, findActiveRole_of_mem hids hmem hid hdel]
      rw [if_pos (matchingPermissions_pos.mpr ⟨p, hpmem, hp⟩)]
  · intro e he
    cases hfind : findActiveRole roles roleId with
    | none =>
      simp only [validateUserPermission, hfind] at he
      cases he; rfl
    | some r =>
      simp only [validateUserPermission, hfind] at he
      split at he
      · cases he
      · cases he; rfl

/-- Claim C2 witness: a role holding the single permission (GET, /users)
is granted GET /users (also through the /api/v1 prefix) and denied
POST /users and GET /users/1. -/
theorem rbac_grant_iff_exact_match_witness :
    (([⟨(7 : Nat), "ADMIN", Option.none, [⟨"/users", "GET", Option.none⟩]⟩] :
        List Role).map Role.id).Nodup
    ∧ (validateUserPermission [⟨7, "ADMIN", Option.none,
        [⟨"/users", "GET", Option.none⟩]⟩] 7 "/api/v1/users" "GET" = .ok () ↔
        ∃ r ∈ ([⟨7, "ADMIN", Option.none, [⟨"/users", "GET", Option.none⟩]⟩] :
            List Role), r.id = 7 ∧ r.deletedAt = Option.none ∧
          ∃ p ∈ r.permissions, p.deletedAt = Option.none ∧
            p.path = stripPrefix "/api/v1/users" ∧ p.method = "GET")
    ∧ validateUserPermission [⟨7, "ADMIN", Option.none,
        [⟨"/users", "GET", Option.none⟩]⟩] 7 "/api/v1/users" "GET" = .ok ()
    ∧ validateUserPermission [⟨7, "ADMIN", Option.none,
        [⟨"/users", "GET", Option.none⟩]⟩] 7 "/users" "POST" =
        .error (.forbiddenE "Unauthorized")
    ∧ validateUserPermission [⟨7, "ADMIN", Option.none,
        [⟨"/users", "GET", Option.none⟩]⟩] 7 "/users/1" "GET" =
        .error (.forbiddenE "Unauthorized") :=
  ⟨by decide,
   (rbac_grant_iff_exact_match _ 7 "/api/v1/users" "GET" (by decide)).1,
   by decide, by decide, by decide⟩

/-- Claim C4: under AND, evaluation proceeds in declared order; the
overall result is success iff every strategy succeeds; the first failing
strategy aborts evaluation (only the strategies up to and including it are
evaluated, and the result does not depend on what follows); the failure is
propagated verbatim when it is an HTTP-typed error and otherwise
normalized to a generic Unauthorized. -/
theorem and_condition_eval (roles : List Role)
    (verify : String → Option AccessTokenPayload) (names : List AuthType)
    (req : GuardRequest) (outs pre post : List GOutcome) (o : GOutcome) :
    (canActivateGuards roles verify names .andCond req =
      handleAndCondition (names.map (guardOutcome roles verify req)))
    ∧ (handleAndCondition outs = .ok () ↔ ∀ x ∈ outs, x = .ok)
    ∧ (outs = pre ++ o :: post → (∀ x ∈ pre, x = .ok) → o ≠ .ok →
        handleAndCondition outs = .error (.http (andFailureError o)) ∧
        evalCountAnd outs = pre.length + 1)
    ∧ (∀ e, andFailureError (.raise (.http e)) = e)
    ∧ (∀ m, andFailureError (.raise (.other m)) = genericUnauthorized)
    ∧ andFailureError .denied = genericUnauthorized := by
  refine ⟨rfl, handleAnd_ok_iff outs, ?_, fun e => rfl, fun m => rfl, rfl⟩
  intro hout hpre ho
  subst hout
  exact ⟨handleAnd_append_fail pre post o hpre ho,
    evalCountAnd_append_fail pre post o hpre ho⟩

/-- Claim C4 witness: AND over [ok, throw Forbidden, denied] fails with
the Forbidden error verbatim after evaluating exactly two strategies. -/
theorem and_condition_eval_witness :
    ([GOutcome.ok, .raise (.http (.forbiddenE "Unauthorized")), .denied] =
        [GOutcome.ok] ++ GOutcome.raise (.http (.forbiddenE "Unauthorized")) ::
          [GOutcome.denied]
      ∧ (∀ x ∈ [GOutcome.ok], x = GOutcome.ok)
      ∧ GOutcome.raise (.http (.forbiddenE "Unauthorized")) ≠ GOutcome.ok)
    ∧ (handleAndCondition [GOutcome.ok, .raise (.http (.forbiddenE "Unauthorized")),
          .denied] = .ok () ↔
        ∀ x ∈ [GOutcome.ok, GOutcome.raise (.http (.forbiddenE "Unauthorized")),
          GOutcome.denied], x = GOutcome.ok)
    ∧ handleAndCondition [GOutcome.ok, .raise (.http (.forbiddenE "Unauthorized")),
        .denied] = .error (.http (andFailureError
          (.raise (.http (.forbiddenE "Unauthorized")))))
    ∧ evalCountAnd [GOutcome.ok, .raise (.http (.forbiddenE "Unauthorized")),
        .denied] = [GOutcome.ok].length + 1 := by
  have h := and_condition_eval [] (fun _ => Option.none) [] ⟨Option.none, "", ""⟩
    [GOutcome.ok, .raise (.http (.forbiddenE "Unauthorized")), .denied]
    [GOutcome.ok] [GOutcome.denied]
    (.raise (.http (.forbiddenE "Unauthorized")))
  have hc := h.2.2.1 (by decide) (by decide) (by decide)
  exact ⟨⟨by decide, by decide, by decide⟩, h.2.1, hc.1, hc.2⟩

/-- Claim C3 counterexample: under OR with declared strategies
[Bearer, ApiKey] and a request with no Authorization header, Bearer throws
the HTTP-typed Unauthorized "Access token is missing or malformed", but
the ApiKey strategy (no registered guard) then throws an untyped
TypeError, which overwrites `lastError`; the evaluation therefore raises
`new UnauthorizedException()` instead of re-raising the last HTTP-typed
error thrown, refuting the claim as stated. -/
theorem or_last_http_error_counterexample :
    guardOutcome [] (fun _ => Option.none) ⟨Option.none, "/users", "GET"⟩ .bearer =
      .raise (.http (.unauthorizedE "Access token is missing or malformed"))
    ∧ canActivateGuards [] (fun _ => Option.none) [.bearer, .apiKey] .orCond
        ⟨Option.none, "/users", "GET"⟩ = .error (.http genericUnauthorized)
    ∧ JsError.http genericUnauthorized ≠
        .http (.unauthorizedE "Access token is missing or malformed") := by
  refine ⟨rfl, rfl, by decide⟩

/-- Claim C3 (amended): under OR, strategies are tried in declared order
and the first success short-circuits (later strategies are not evaluated);
if all strategies fail, the surfaced error is determined by the LAST error
thrown of any kind — re-raised verbatim when HTTP-typed, otherwise (also
when nothing was thrown) a generic Unauthorized; a strategy failing by
returning false does not update the remembered error. OR over
{Bearer, None}, in either declaration order, succeeds for a request with
no credential. -/
theorem or_condition_eval_amended (roles : List Role)
    (verify : String → Option AccessTokenPayload) (req : GuardRequest)
    (outs pre post : List GOutcome) :
    (canActivateGuards roles verify [.bearer, .noneT] .orCond req =
      handleOrCondition ([AuthType.bearer, .noneT].map
        (guardOutcome roles verify req)) Option.none)
    ∧ (outs = pre ++ .ok :: post → (∀ x ∈ pre, x ≠ .ok) →
        handleOrCondition outs Option.none = .ok ()
          ∧ evalCountOr outs = pre.length + 1)
    ∧ ((∀ x ∈ outs, x ≠ .ok) →
        handleOrCondition outs Option.none = .error (orFinalError (lastThrown outs)))
    ∧ (∀ e, orFinalError (some (.http e)) = .http e)
    ∧ (∀ m, orFinalError (some (.other m)) = .http genericUnauthorized)
    ∧ orFinalError Option.none = .http genericUnauthorized
    ∧ (req.authorization = Option.none →
        canActivateGuards roles verify [.bearer, .noneT] .orCond req = .ok ()
          ∧ canActivateGuards roles verify [.noneT, .bearer] .orCond req = .ok ()) := by
  refine ⟨rfl, ?_, ?_, fun e => rfl, fun m => rfl, rfl, ?_⟩
  · intro hout hpre
    subst hout
    exact ⟨handleOr_append_ok pre post Option.none hpre,
      evalCountOr_append_ok pre post hpre⟩
  · intro h
    exact handleOr_all_fail outs Option.none h
  · intro hauth
    constructor
    · show handleOrCondition _ Option.none = .ok ()
      simp only [List.map]
      rw [guardOutcome, accessTokenGuardOutcome, extractTokenFromHeader, hauth]
      rfl
    · rfl

/-- Claim C3 witness: OR over [throws HTTP Forbidden, denied] surfaces the
Forbidden verbatim (it is the last thrown error) after trying both; OR
over [denied, ok, denied] succeeds having evaluated exactly two; and OR
over {Bearer, None} with no credential succeeds in both orders. -/
theorem or_condition_eval_amended_witness :
    (([GOutcome.denied, .ok, .denied] =
        [GOutcome.denied] ++ GOutcome.ok :: [GOutcome.denied])
      ∧ (∀ x ∈ [GOutcome.denied], x ≠ GOutcome.ok)
      ∧ (∀ x ∈ [GOutcome.raise (.http (.forbiddenE "Unauthorized")), GOutcome.denied],
          x ≠ GOutcome.ok)
      ∧ (⟨Option.none, "/users", "GET"⟩ : GuardRequest).authorization = Option.none)
    ∧ (handleOrCondition [GOutcome.denied, .ok, .denied] Option.none = .ok ()
        ∧ evalCountOr [GOutcome.denied, .ok, .denied] = [GOutcome.denied].length + 1)
    ∧ handleOrCondition [GOutcome.raise (.http (.forbiddenE "Unauthorized")),
        GOutcome.denied] Option.none =
        .error (orFinalError (lastThrown [GOutcome.raise (.http (.forbiddenE
          "Unauthorized")), GOutcome.denied]))
    ∧ (canActivateGuards [] (fun _ => Option.none) [.bearer, .noneT] .orCond
          ⟨Option.none, "/users", "GET"⟩ = .ok ()
        ∧ canActivateGuards [] (fun _ => Option.none) [.noneT, .bearer] .orCond
          ⟨Option.none, "/users", "GET"⟩ = .ok ()) := by
  have h1 := or_condition_eval_amended [] (fun _ => Option.none)
    ⟨Option.none, "/users", "GET"⟩ [GOutcome.denied, .ok, .denied]
    [GOutcome.denied] [GOutcome.denied]
  have h2 := or_condition_eval_amended [] (fun _ => Option.none)
    ⟨Option.none, "/users", "GET"⟩
    [GOutcome.raise (.http (.forbiddenE "Unauthorized")), GOutcome.denied] [] []
  exact ⟨⟨by decide, by decide, by decide, rfl⟩,
    h1.2.1 (by decide) (by decide), h2.2.2.1 (by decide), h1.2.2.2.2.2.2 rfl⟩

/-- Claim C10 counterexample: an endpoint declaring OR over
[ApiKey, None] — ApiKey having no registered guard implementation — still
GRANTS access (None succeeds), so "guard evaluation never grants access
when an unregistered strategy name is declared" is false as stated for the
OR combinator. -/
theorem unknown_strategy_or_grants_counterexample :
    canActivateGuards [] (fun _ => Option.none) [.apiKey, .noneT] .orCond
      ⟨Option.none, "/users", "GET"⟩ = .ok () := rfl

/-- Claim C10 (amended): an unregistered strategy name (ApiKey) never
itself grants access and never crashes the request with an untyped error:
its `undefined` guard throws a TypeError that the combinators catch. Under
AND any list containing it can never succeed; when every declared
strategy is unregistered, both AND and OR raise the generic Unauthorized;
and no guard combination ever surfaces an untyped (non-HTTP) error. Under
OR, however, another registered strategy may still grant access. -/
theorem unknown_strategy_fail_closed_amended (roles : List Role)
    (verify : String → Option AccessTokenPayload) (req : GuardRequest)
    (names : List AuthType) (cond : CondGuard) :
    (AuthType.apiKey ∈ names →
      canActivateGuards roles verify names .andCond req ≠ .ok ())
    ∧ (names ≠ [] → (∀ n ∈ names, n = AuthType.apiKey) →
        canActivateGuards roles verify names .andCond req =
            .error (.http genericUnauthorized)
          ∧ canActivateGuards roles verify names .orCond req =
            .error (.http genericUnauthorized))
    ∧ (∀ m, canActivateGuards roles verify names cond req ≠ .error (.other m)) := by
  refine ⟨?_, ?_, ?_⟩
  · intro hmem hok
    have := (handleAnd_ok_iff _).mp hok
    have hout := this (guardOutcome roles verify req .apiKey)
      (List.mem_map_of_mem (guardOutcome roles verify req) hmem)
    simp [guardOutcome] at hout
  · intro hne hall
    cases names with
    | nil => exact absurd rfl hne
    | cons n rest =>
      have hn : n = AuthType.apiKey := hall n (List.mem_cons_self ..)
      subst hn
      constructor
      · show handleAndCondition _ = _
        simp only [List.map, guardOutcome]
        rfl
      · show handleOrCondition _ Option.none = _
        have hfail : ∀ x ∈ (AuthType.apiKey :: rest).map (guardOutcome roles verify req),
            x ≠ .ok := by
          intro x hx
          rcases List.mem_map.mp hx with ⟨a, ha, rfl⟩
          have : a = AuthType.apiKey := hall a ha
          subst this
          simp [guardOutcome]
        rw [handleOr_all_fail _ _ hfail]
        have hlast : (rest.map (guardOutcome roles verify req)).foldl lastErrorStep
            (some (.other "TypeError: guard.canActivate is not a function")) =
            some (.other "TypeError: guard.canActivate is not a function") := by
          apply foldl_lastErrorStep_const
          intro x hx
          rcases List.mem_map.mp hx with ⟨a, ha, rfl⟩
          have : a = AuthType.apiKey := hall a (List.mem_cons_of_mem _ ha)
          subst this
          rfl
        show Except.error (orFinalError (lastThrown _)) = _
        rw [lastThrown]
        simp only [List.map, List.foldl_cons, guardOutcome, lastErrorStep]
        rw [hlast]
        rfl
  · intro m
    cases cond with
    | andCond => exact handleAnd_no_other _ m
    | orCond => exact handleOr_no_other _ _ m

/-- Claim C10 witness: with every declared strategy unregistered
([ApiKey]), AND and OR both fail with the generic Unauthorized, AND over
[Bearer, ApiKey] cannot succeed, and no untyped error surfaces. -/
theorem unknown_strategy_fail_closed_witness :
    (AuthType.apiKey ∈ [AuthType.bearer, AuthType.apiKey]
      ∧ ([AuthType.apiKey] : List AuthType) ≠ []
      ∧ (∀ n ∈ [AuthType.apiKey], n = AuthType.apiKey))
    ∧ canActivateGuards [] (fun _ => Option.none) [.bearer, .apiKey] .andCond
        ⟨Option.none, "/users", "GET"⟩ ≠ .ok ()
    ∧ (canActivateGuards [] (fun _ => Option.none) [.apiKey] .andCond
          ⟨Option.none, "/users", "GET"⟩ = .error (.http genericUnauthorized)
        ∧ canActivateGuards [] (fun _ => Option.none) [.apiKey] .orCond
          ⟨Option.none, "/users", "GET"⟩ = .error (.http genericUnauthorized))
    ∧ (∀ m, canActivateGuards [] (fun _ => Option.none) [.apiKey] .orCond
        ⟨Option.none, "/users", "GET"⟩ ≠ .error (.other m)) := by
  have h1 := unknown_strategy_fail_closed_amended [] (fun _ => Option.none)
    ⟨Option.none, "/users", "GET"⟩ [AuthType.bearer, AuthType.apiKey] .andCond
  have h2 := unknown_strategy_fail_closed_amended [] (fun _ => Option.none)
    ⟨Option.none, "/users", "GET"⟩ [AuthType.apiKey] .orCond
  exact ⟨⟨by decide, by decide, by decide⟩, h1.1 (by decide),
    h2.2.1 (by decide) (by decide), h2.2.2⟩

/-- Claim C6 counterexample: the verification-code upsert is keyed by
email alone, not by (email, purpose): issuing a LOGIN-purpose code for an
email that holds a live REGISTER-purpose code overwrites that code's value
and expiry in place (and even leaves the stored purpose as REGISTER), so
codes issued for the same email under different purposes DO overwrite each
other. -/
theorem verification_code_purpose_overwrite_counterexample :
    createVerificationCode [⟨"a@b.c", "111111", .register, 100⟩]
      ⟨"a@b.c", "222222", .login, 200⟩ = [⟨"a@b.c", "222222", .register, 200⟩] := rfl

/-- Claim C6 (amended): issuing a verification code upserts keyed by the
email alone: when no row holds the email, the new row is appended; when a
row holds the email, nothing is appended and that row's code and expiry
are overwritten in place regardless of the purposes involved (the stored
purpose field is left unchanged); thus at most one live code per email is
maintained (uniqueness of emails is preserved by every issue). -/
theorem verification_code_upsert_by_email (store : List VerificationCodeRow)
    (p : VerificationCodeRow) :
    (store.any (fun r => r.email = p.email) = false →
      createVerificationCode store p = store ++ [p])
    ∧ (store.any (fun r => r.email = p.email) = true →
        (createVerificationCode store p).length = store.length
        ∧ ∀ r ∈ store, r.email = p.email →
            ({ r with code := p.code, expiresAt := p.expiresAt } :
              VerificationCodeRow) ∈ createVerificationCode store p)
    ∧ ((store.map VerificationCodeRow.email).Nodup →
        ((createVerificationCode store p).map VerificationCodeRow.email).Nodup) := by
  refine ⟨?_, ?_, ?_⟩
  · intro h
    rw [createVerificationCode, if_neg]
    simp [h]
  · intro h
    rw [createVerificationCode, if_pos (by simp_all)]
    refine ⟨List.length_map _ _, ?_⟩
    intro r hr hremail
    have := List.mem_map_of_mem
      (fun r : VerificationCodeRow =>
        if r.email = p.email then
          { r with code := p.code, expiresAt := p.expiresAt } else r) hr
    simpa [hremail] using this
  · intro hnd
    rw [createVerificationCode]
    split
    · have : (store.map (fun r : VerificationCodeRow =>
          if r.email = p.email then
            { r with code := p.code, expiresAt := p.expiresAt } else r)).map
          VerificationCodeRow.email = store.map VerificationCodeRow.email := by
        rw [List.map_map]
        apply List.map_congr_left
        intro r _
        by_cases hc : r.email = p.email <;> simp [hc]
      rw [this]
      exact hnd
    · rename_i hany
      rw [List.map_append]
      rw [List.nodup_append]
      refine ⟨hnd, List.nodup_singleton _, ?_⟩
      intro x hx
      rcases List.mem_map.mp hx with ⟨r, hr, rfl⟩
      simp only [List.map_cons, List.map_nil, List.mem_singleton]
      intro hx'
      apply hany
      rw [List.any_eq_true]
      exact ⟨r, hr, by simp [hx']⟩

/-- Claim C6 witness: issuing for a fresh email appends; issuing again for
the same email overwrites in place keeping one row; email-uniqueness is
preserved. -/
theorem verification_code_upsert_by_email_witness :
    (([] : List VerificationCodeRow).any
        (fun r => r.email = (⟨"a@b.c", "111111", VCType.register, 100⟩ :
          VerificationCodeRow).email) = false
      ∧ ([⟨"a@b.c", "111111", VCType.register, 100⟩] :
          List VerificationCodeRow).any
          (fun r => r.email = (⟨"a@b.c", "222222", VCType.login, 200⟩ :
            VerificationCodeRow).email) = true
      ∧ (([⟨"a@b.c", "111111", VCType.register, 100⟩] :
          List VerificationCodeRow).map VerificationCodeRow.email).Nodup)
    ∧ createVerificationCode [] ⟨"a@b.c", "111111", VCType.register, 100⟩ =
        [] ++ [⟨"a@b.c", "111111", VCType.register, 100⟩]
    ∧ (createVerificationCode [⟨"a@b.c", "111111", VCType.register, 100⟩]
          ⟨"a@b.c", "222222", VCType.login, 200⟩).length =
        ([⟨"a@b.c", "111111", VCType.register, 100⟩] :
          List VerificationCodeRow).length
    ∧ ((createVerificationCode [⟨"a@b.c", "111111", VCType.register, 100⟩]
          ⟨"a@b.c", "222222", VCType.login, 200⟩).map
          VerificationCodeRow.email).Nodup := by
  have h1 := verification_code_upsert_by_email []
    ⟨"a@b.c", "111111", VCType.register, 100⟩
  have h2 := verification_code_upsert_by_email
    [⟨"a@b.c", "111111", VCType.register, 100⟩]
    ⟨"a@b.c", "222222", VCType.login, 200⟩
  exact ⟨⟨by decide, by decide, by decide⟩, h1.1 (by decide),
    (h2.2.1 (by decide)).1, h2.2.2 (by decide)⟩

/-- Claim C7 counterexample: a verification code validated at exactly its
expiresAt instant is ACCEPTED (the code tests `expiresAt < now` strictly),
refuting "validation performed when the current time equals expiresAt is
rejected as expired". -/
theorem code_expiry_boundary_counterexample :
    validateVerificationCode [⟨"a@b.c", "123456", .login, 1000⟩]
      "a@b.c" "123456" .login 1000 = .ok ⟨"a@b.c", "123456", .login, 1000⟩ := rfl

/-- Claim C7 (amended): for every stored verification code, validation
succeeds iff the validation instant is no later than expiresAt — so
validation at exactly expiresAt succeeds, one millisecond earlier
succeeds, and rejection as expired (InvalidOTPExpired) happens exactly
when the validation instant is strictly after expiresAt; the comparison
uses the current time at the validation instant, and a failed exact
(email, code, purpose) match fails InvalidOTP. -/
theorem code_expiry_strict_after (store : List VerificationCodeRow)
    (email code : String) (type : VCType) (now : Nat) :
    (∀ r, findVerificationCode store email code type = some r →
      (validateVerificationCode store email code type now = .ok r ↔
        now ≤ r.expiresAt)
      ∧ (r.expiresAt < now →
          validateVerificationCode store email code type now =
            .error InvalidOTPExpiredExcepton))
    ∧ (findVerificationCode store email code type = Option.none →
        validateVerificationCode store email code type now =
          .error InvalidOTPException) := by
  constructor
  · intro r hr
    constructor
    · constructor
      · intro h
        simp only [validateVerificationCode, hr] at h
        split at h
        · cases h
        · rename_i hc; omega
      · intro h
        simp only [validateVerificationCode, hr]
        rw [if_neg (by omega)]
    · intro h
      simp only [validateVerificationCode, hr]
      rw [if_pos h]
  · intro h
    simp only [validateVerificationCode, h]

/-- Claim C7 witness: with the single stored code expiring at 1000, lookup
succeeds, validation at 999 and at 1000 succeeds, and validation at 1001
fails InvalidOTPExpired. -/
theorem code_expiry_strict_after_witness :
    findVerificationCode [⟨"a@b.c", "123456", VCType.login, 1000⟩]
        "a@b.c" "123456" VCType.login = some ⟨"a@b.c", "123456", VCType.login, 1000⟩
    ∧ (validateVerificationCode [⟨"a@b.c", "123456", VCType.login, 1000⟩]
          "a@b.c" "123456" VCType.login 999 =
          .ok ⟨"a@b.c", "123456", VCType.login, 1000⟩ ↔
        999 ≤ (⟨"a@b.c", "123456", VCType.login, 1000⟩ :
          VerificationCodeRow).expiresAt)
    ∧ ((⟨"a@b.c", "123456", VCType.login, 1000⟩ :
          VerificationCodeRow).expiresAt < 1001 →
        validateVerificationCode [⟨"a@b.c", "123456", VCType.login, 1000⟩]
          "a@b.c" "123456" VCType.login 1001 = .error InvalidOTPExpiredExcepton) := by
  have h999 := code_expiry_strict_after [⟨"a@b.c", "123456", VCType.login, 1000⟩]
    "a@b.c" "123456" VCType.login 999
  have h1001 := code_expiry_strict_after [⟨"a@b.c", "123456", VCType.login, 1000⟩]
    "a@b.c" "123456" VCType.login 1001
  exact ⟨by decide, (h999.1 _ (by decide)).1, (h1001.1 _ (by decide)).2⟩

/-- Claim C8: verifying a freshly signed access token succeeds and returns
exactly the input claims plus the added uuid, iat and exp fields — no
input field altered or dropped; and two tokens signed from identical
claims with distinct fresh uuids are never identical. (The expiry duration
is positive, and uuidv4 draws are distinct.) -/
theorem token_roundtrip_and_uniqueness (cfg : TokenCfg) (dto : AccessTokenDtoS)
    (u1 u2 now : Nat) (hexp : 0 < cfg.accessExp) :
    verifyAccessToken cfg (signAccessToken cfg dto u1 now) now =
      .ok { toAccessTokenDtoS := dto, uuid := u1, iat := now,
            exp := now + cfg.accessExp }
    ∧ (signAccessToken cfg dto u1 now).payload.toAccessTokenDtoS = dto
    ∧ (u1 ≠ u2 →
        signAccessToken cfg dto u1 now ≠ signAccessToken cfg dto u2 now) := by
  refine ⟨?_, rfl, ?_⟩
  · rw [verifyAccessToken, if_pos ⟨rfl, rfl⟩]
    rw [if_neg (by simp only [signAccessToken]; omega)]
    rfl
  · intro hne heq
    have := congrArg (fun t => t.payload.uuid) heq
    simp only [signAccessToken] at this
    exact hne this

/-- Claim C8 witness: a concrete round-trip with expiry 10 at time 1000,
and distinct uuids 0 and 1 yielding distinct tokens. -/
theorem token_roundtrip_and_uniqueness_witness :
    0 < cfgW.accessExp
    ∧ verifyAccessToken cfgW
        (signAccessToken cfgW ⟨1, "a@b.c", 5, 7, "ADMIN"⟩ 0 1000) 1000 =
        .ok { toAccessTokenDtoS := ⟨1, "a@b.c", 5, 7, "ADMIN"⟩, uuid := 0,
              iat := 1000, exp := 1000 + cfgW.accessExp }
    ∧ (signAccessToken cfgW ⟨1, "a@b.c", 5, 7, "ADMIN"⟩ 0 1000).payload.toAccessTokenDtoS =
        ⟨1, "a@b.c", 5, 7, "ADMIN"⟩
    ∧ ((0 : Nat) ≠ 1 →
        signAccessToken cfgW ⟨1, "a@b.c", 5, 7, "ADMIN"⟩ 0 1000 ≠
          signAccessToken cfgW ⟨1, "a@b.c", 5, 7, "ADMIN"⟩ 1 1000) := by
  have h := token_roundtrip_and_uniqueness cfgW ⟨1, "a@b.c", 5, 7, "ADMIN"⟩
    0 1 1000 (by decide)
  exact ⟨by decide, h.1, h.2.1, h.2.2⟩

/-- Claim C9: TOTP verification (30-second step, window 1) accepts a code
generated at counter cGen iff cGen is the current time-step counter or one
of its two adjacent steps; a code generated two or more steps away is
rejected. (The HOTP codes of the at most four counters involved are
pairwise distinct — HOTP collisions aside, which is what the window
mechanism presumes.) -/
theorem totp_window_one_iff (hotp : String → Int → String)
    (secret email : String) (tSec : Nat) (c cGen : Int)
    (hc : c = totpCounter TOTP_PERIOD tSec)
    (hdist : ∀ x ∈ ([c - 1, c, c + 1] : List Int), cGen ≠ x →
      hotp secret cGen ≠ hotp secret x) :
    (verifyTOTP hotp TOTP_PERIOD secret email (hotp secret cGen) tSec = true ↔
      (cGen = c - 1 ∨ cGen = c ∨ cGen = c + 1))
    ∧ (2 ≤ (cGen - c).natAbs →
        verifyTOTP hotp TOTP_PERIOD secret email (hotp secret cGen) tSec = false) := by
  have hiff : verifyTOTP hotp TOTP_PERIOD secret email (hotp secret cGen) tSec = true ↔
      (cGen = c - 1 ∨ cGen = c ∨ cGen = c + 1) := by
    rw [verifyTOTP, totpValidate, ← hc]
    constructor
    · intro h
      split at h
      · rename_i h1
        left
        by_contra hne
        exact hdist (c - 1) (by simp) hne h1
      · split at h
        · rename_i h2
          right; left
          by_contra hne
          exact hdist c (by simp) hne h2
        · split at h
          · rename_i h3
            right; right
            by_contra hne
            exact hdist (c + 1) (by simp) hne h3
          · simp at h
    · intro h
      rcases h with h | h | h <;> subst h
      · rw [if_pos rfl]; rfl
      · split
        · rfl
        · rw [if_pos rfl]; rfl
      · split
        · rfl
        · split
          · rfl
          · rw [if_pos rfl]; rfl
  refine ⟨hiff, ?_⟩
  intro hfar
  rw [← Bool.not_eq_true]
  intro h
  rcases hiff.mp h with h1 | h1 | h1 <;> omega

/-- Claim C9 witness: at tSec = 90 (counter 3) a code generated for
counter 2 — the immediately preceding step — is accepted, and the
rejection clause applies to counter 1 (two steps back) with a separate
distinctness instance. -/
theorem totp_window_one_iff_witness :
    ((3 : Int) = totpCounter TOTP_PERIOD 90
      ∧ (∀ x ∈ ([3 - 1, 3, 3 + 1] : List Int), (2 : Int) ≠ x →
          hotpW "S" 2 ≠ hotpW "S" x)
      ∧ (∀ x ∈ ([3 - 1, 3, 3 + 1] : List Int), (1 : Int) ≠ x →
          hotpW "S" 1 ≠ hotpW "S" x))
    ∧ (verifyTOTP hotpW TOTP_PERIOD "S" "a@b.c" (hotpW "S" 2) 90 = true ↔
        ((2 : Int) = 3 - 1 ∨ (2 : Int) = 3 ∨ (2 : Int) = 3 + 1))
    ∧ (2 ≤ ((1 : Int) - 3).natAbs →
        verifyTOTP hotpW TOTP_PERIOD "S" "a@b.c" (hotpW "S" 1) 90 = false) := by
  have h2 := totp_window_one_iff hotpW "S" "a@b.c" 90 3 2 (by decide)
    (by decide)
  have h1 := totp_window_one_iff hotpW "S" "a@b.c" 90 3 1 (by decide)
    (by decide)
  exact ⟨⟨by decide, by decide, by decide⟩, h2.1, h1.2⟩

/-- Claim C5 counterexample: a user with a TOTP secret enrolled and a
correct password who supplies BOTH totpCode and an OTP code does not fail
InvalidTOTPAndCode: the service gives precedence to the (valid) totpCode
and the login succeeds. (At the DTO layer such a body is rejected by the
zod superRefine — loginBodyRefineOk is false — with a validation error,
which is also not InvalidTOTPAndCode.) -/
theorem login_both_codes_counterexample :
    (loginService cfgW hotpW stLoginW bodyBothW "ua" "ip" 75).isOk = true
    ∧ loginBodyRefineOk bodyBothW = false := ⟨rfl, rfl⟩

/-- Claim C5 (amended): for a login by a user with a TOTP secret enrolled
and a correct password, supplying neither totpCode nor code fails
InvalidTOTPAndCode; supplying both does NOT fail InvalidTOTPAndCode at the
service — totpCode takes precedence and the OTP code is ignored — while
the DTO-level superRefine rejects such a body with a zod validation error
before it reaches the service. -/
theorem login_totp_exactly_one_amended (cfg : TokenCfg)
    (hotp : String → Int → String) (st : AuthState) (body : LoginBody)
    (ua ip : String) (now : Nat) (u : UserRow) (secret : String)
    (hu : findUserByEmail st.users body.email = some u)
    (hpw : comparePassword body.password u.password = true)
    (hsec : u.totpSecret = some secret) :
    (body.totpCode = Option.none → body.code = Option.none →
      loginService cfg hotp st body ua ip now =
        .error (.http InvalidTOTPAndCodeException))
    ∧ (body.totpCode.isSome → body.code.isSome →
        loginBodyRefineOk body = false
        ∧ loginService cfg hotp st body ua ip now ≠
            .error (.http InvalidTOTPAndCodeException)) := by
  constructor
  · intro h1 h2
    simp only [loginService, hu, hpw, hsec, h1, h2, if_true, Option.isNone_none,
      Bool.and_self, if_pos]
  · intro ht hc
    obtain ⟨t, ht'⟩ := Option.isSome_iff_exists.mp ht
    obtain ⟨c, hc'⟩ := Option.isSome_iff_exists.mp hc
    refine ⟨by simp [loginBodyRefineOk, ht', hc'], ?_⟩
    have hne : InvalidTOTPException ≠ InvalidTOTPAndCodeException := by decide
    by_cases hvt : verifyTOTP hotp TOTP_PERIOD secret u.email t now = true
    · simpa [loginService, hu, hpw, hsec, ht', hc', hvt] using
        loginIssueTokens_ne_totp_and_code cfg st u ua ip now
    · simp [loginService, hu, hpw, hsec, ht', hc', hvt, hne]

/-- Claim C5 witness: the concrete TOTP-enrolled user with a correct
password and neither code supplied fails InvalidTOTPAndCode. -/
theorem login_totp_exactly_one_witness :
    (findUserByEmail stLoginW.users bodyNeitherW.email = some userW
      ∧ comparePassword bodyNeitherW.password userW.password = true
      ∧ userW.totpSecret = some "S"
      ∧ bodyNeitherW.totpCode = Option.none ∧ bodyNeitherW.code = Option.none)
    ∧ loginService cfgW hotpW stLoginW bodyNeitherW "ua" "ip" 75 =
        .error (.http InvalidTOTPAndCodeException) := by
  have h := login_totp_exactly_one_amended cfgW hotpW stLoginW bodyNeitherW
    "ua" "ip" 75 userW "S" (by decide) (by decide) (by decide)
  exact ⟨⟨by decide, by decide, by decide, rfl, rfl⟩, h.1 rfl rfl⟩

/-- Claim C1: rotating a refresh token renders the old token permanently
unusable — if a refresh call succeeded on a state (whose stored tokens all
carry uuids older than the next fresh one), then a second refresh call
presenting the same old token against the resulting state fails with
RefreshTokenRevoked (as long as the old token itself has not yet expired,
in which case the revocation check is reached), and the old token's row is
gone from the store outright: deletion is hard, so no soft-delete path can
restore it. -/
theorem refresh_rotation_revokes_old_token (cfg : TokenCfg) (st st2 : AuthState)
    (tok : Jwt RefreshTokenPayloadS) (ua ip ua2 ip2 : String) (now now2 : Nat)
    (pair : Jwt AccessTokenPayload × Jwt RefreshTokenPayloadS)
    (hfresh : uuidFresh st)
    (h1 : refreshTokenService cfg st tok ua ip now = .ok (st2, pair))
    (h2 : now2 < tok.payload.exp) :
    refreshTokenService cfg st2 tok ua2 ip2 now2 =
      .error RefreshTokenRevokedException
    ∧ findRefreshTokenRow st2.refreshTokens tok = Option.none := by
  -- Step 1: the try-block succeeded with the same result.
  have htry : refreshTokenTry cfg st tok ua ip now = .ok (st2, pair) := by
    cases htry' : refreshTokenTry cfg st tok ua ip now with
    | ok r =>
      rw [refreshTokenService, htry'] at h1
      simp only at h1
      injection h1 with h1
      rw [h1]
    | error e =>
      rw [refreshTokenService, htry'] at h1
      cases e with
      | http he =>
        simp only at h1
        split at h1 <;> cases h1
      | other m => cases h1
  -- Step 2: dissect the try-block.
  rw [refreshTokenTry] at htry
  cases hv : verifyRefreshToken cfg tok now with
  | error e => rw [hv] at htry; cases htry
  | ok payload =>
    rw [hv] at htry
    simp only at htry
    cases hfind : findRefreshTokenIncludeUserRole st tok with
    | none => rw [hfind] at htry; cases htry
    | some ru =>
      obtain ⟨row, user⟩ := ru
      rw [hfind] at htry
      simp only at htry
      cases hupd : udpateDevice st.devices row.deviceId ua ip now with
      | error e => rw [hupd] at htry; cases htry
      | ok devices1 =>
        rw [hupd] at htry
        simp only [generateAccessAndRefreshToken] at htry
        cases hv2 : verifyRefreshToken cfg
            (signRefreshToken cfg payload.userId payload.email (st.nextUuid + 1) now)
            now with
        | error e => rw [hv2] at htry; cases htry
        | ok decoded =>
          rw [hv2] at htry
          simp only [Except.ok.injEq, Prod.mk.injEq] at htry
          obtain ⟨hst2, _hpair⟩ := htry
          -- Facts about the verified old token.
          rw [verifyRefreshToken] at hv
          split at hv
          · split at hv
            · cases hv
            · rename_i hkey hnexp
              rw [Except.ok.injEq] at hv
              -- Facts about the found row.
              have hrowfind : findRefreshTokenRow st.refreshTokens tok = some row := by
                rw [findRefreshTokenIncludeUserRole] at hfind
                cases hf : findRefreshTokenRow st.refreshTokens tok with
                | none => rw [hf] at hfind; cases hfind
                | some row' =>
                  rw [hf] at hfind
                  simp only at hfind
                  cases hu : findUserById st.users row'.userId with
                  | none => rw [hu] at hfind; cases hfind
                  | some u' =>
                    rw [hu] at hfind
                    simp only [Option.some.injEq, Prod.mk.injEq] at hfind
                    rw [hfind.1]
              obtain ⟨hrowmem, hrowtok⟩ := findRefreshTokenRow_eq_some hrowfind
              have huuid : tok.payload.uuid < st.nextUuid := by
                have := hfresh row hrowmem
                rwa [hrowtok] at this
              -- The old token's row is gone from the new state.
              have hnone : findRefreshTokenRow st2.refreshTokens tok = Option.none := by
                rw [← hst2]
                apply findRefreshTokenRow_eq_none
                intro r hr
                rcases List.mem_append.mp hr with hmem | hmem
                · exact (mem_deleteRefreshTokenRows hmem).2
                · rw [List.mem_singleton] at hmem
                  subst hmem
                  intro heq
                  have := congrArg (fun t => t.payload.uuid) heq
                  simp only [signRefreshToken] at this
                  omega
              refine ⟨?_, hnone⟩
              -- The second refresh call: verification still passes, the
              -- row lookup misses, RefreshTokenRevoked is rethrown verbatim.
              have hv2' : verifyRefreshToken cfg tok now2 = .ok tok.payload := by
                rw [verifyRefreshToken, if_pos hkey, if_neg (by omega)]
              have hfind2 : findRefreshTokenIncludeUserRole st2 tok = Option.none := by
                rw [findRefreshTokenIncludeUserRole, hnone]
              rw [refreshTokenService, refreshTokenTry, hv2']
              simp only [hfind2]
              rfl
          · cases hv

/-- Claim C1 witness: the concrete rotation of tokW in stW at time 50
succeeds, and presenting tokW again at time 60 fails RefreshTokenRevoked
with its row gone. -/
theorem refresh_rotation_revokes_old_token_witness :
    (uuidFresh stW
      ∧ refreshTokenService cfgW stW tokW "ua" "ip" 50 = .ok (stW2, pairW)
      ∧ 60 < tokW.payload.exp)
    ∧ refreshTokenService cfgW stW2 tokW "x" "y" 60 =
        .error RefreshTokenRevokedException
    ∧ findRefreshTokenRow stW2.refreshTokens tokW = Option.none := by
  have h := refresh_rotation_revokes_old_token cfgW stW stW2 tokW
    "ua" "ip" "x" "y" 50 60 pairW (by decide) (by decide) (by decide)
  exact ⟨⟨by decide, by decide, by decide⟩, h.1, h.2⟩

end NestAuth
